import Mathlib

set_option maxHeartbeats 1000000

/-!
Verification development for the render_pipeline_cpp repository.

The definitions below are shallow embeddings of the C++ sources:
  - `src/src/rpcore/render_stage.cpp` (RenderStage),
  - `src/src/rpcore/stages/update_previous_pipes_stage.cpp` (UpdatePreviousPipesStage),
  - `src/src/rpplugins/env_probes/src/env_probes_plugin.cpp` (EnvProbesPlugin),
  - the ProbeManager translation unit (`src/unnamed/part_002`).
Stateful C++ methods become pure functions on explicit state records; machine
containers (std::map, std::vector) become association lists and lists; error
returns become Option or Except values.  Where a definition could not be taken
from the sources (the file is absent from src/), its doc comment starts with
"Modelled from the spec:".
-/

namespace RP

/-- Panda3D Texture::TextureType values used by the sources (external engine
enum; only the constructors the sources mention are modelled). -/
inductive TextureType where
  | tt_1d_texture
  | tt_2d_texture
  | tt_3d_texture
  | tt_2d_texture_array
  | tt_cube_map
  | tt_buffer_texture
  | tt_cube_map_array
deriving DecidableEq, Repr

/-- Panda3D Texture (external engine object): the fields the sources read or
write (get_name, get_texture_type, set_x_size/set_y_size/set_z_size). -/
structure Texture where
  name : String
  texture_type : TextureType
  x_size : Int
  y_size : Int
  z_size : Int
deriving DecidableEq, Repr

/-- RenderTarget state as the claims use it.  The class itself lives in
render_target.cpp which is not among the sources; the spec describes it as "a
GPU framebuffer/attachment set owned by a stage; resized on window-resize
events".  `active` is toggled by RenderStage::set_active, and
`resize_considered` records that consider_resize was invoked on the target. -/
structure RenderTarget where
  name : String
  active : Bool
  resize_considered : Bool
deriving DecidableEq, Repr

/-- Modelled from the spec: the RenderTarget constructor (render_target.cpp is
not among the sources).  RenderStage::create_target calls
std::make_unique<RenderTarget>(target_name); only the name is prescribed, the
remaining fields start inactive.  No claim depends on these defaults. -/
def mk_render_target (name : String) : RenderTarget :=
  { name := name, active := false, resize_considered := false }

/-- Modelled from the spec: RenderTarget::consider_resize (render_target.cpp is
not among the sources).  The spec says render targets are "resized on
window-resize events"; the model marks the target as having been resized. -/
def consider_resize (t : RenderTarget) : RenderTarget :=
  { t with resize_considered := true }

/-- RenderStage state (render_stage.cpp): the stage id, the owning plugin id,
the `active_` flag and the `targets_` map (modelled as an association list from
fully qualified target name to target) plus the RPObject error log. -/
structure RenderStageState where
  plugin_id : String
  stage_id : String
  active : Bool
  targets : List (String × RenderTarget)
  log : List String
deriving DecidableEq, Repr

/-- RenderStage::set_active (render_stage.cpp lines 72-80): when the new state
differs from `active_`, store it and propagate it to every owned target;
otherwise do nothing. -/
def set_active (s : RenderStageState) (state : Bool) : RenderStageState :=
  if s.active ≠ state then
    { s with
      active := state,
      targets := s.targets.map fun kv => (kv.1, { kv.2 with active := state }) }
  else s

/-- RenderStage::create_target (render_stage.cpp lines 82-93): build the fully
qualified name "<plugin_id>:<stage_id>:<name>"; if a target with that name
already exists, log an error and return nullptr (none) leaving the map
unchanged; otherwise emplace a fresh target and return it. -/
def create_target (s : RenderStageState) (name : String) :
    Option RenderTarget × RenderStageState :=
  let target_name := s.plugin_id ++ ":" ++ s.stage_id ++ ":" ++ name
  if (s.targets.find? fun kv => kv.1 == target_name).isSome then
    (none, { s with log := s.log ++ ["Overriding existing target: " ++ target_name] })
  else
    let t := mk_render_target target_name
    (some t, { s with targets := s.targets ++ [(target_name, t)] })

/-- Calls a RenderStage makes while handling a window resize, in order. -/
inductive StageCall where
  | set_dimensions_call
  | consider_resize_call (target_name : String)
deriving DecidableEq, Repr

/-- RenderStage::handle_window_resize (render_stage.cpp lines 119-124): first
invoke the virtual set_dimensions hook (passed as a function on the stage
state), then call consider_resize on every owned target.  The second component
is the trace of calls made, in order. -/
def handle_window_resize (set_dimensions : RenderStageState → RenderStageState)
    (s : RenderStageState) : RenderStageState × List StageCall :=
  let s1 := set_dimensions s
  ({ s1 with targets := s1.targets.map fun kv => (kv.1, consider_resize kv.2) },
   StageCall.set_dimensions_call ::
     s1.targets.map fun kv => StageCall.consider_resize_call kv.1)

end RP

namespace RP

/-- Concrete stage used to refute claim C6: the stage flag is already true
while an owned target is still inactive (targets are created inactive and only
synchronised by a state-changing set_active call). -/
def c6_stage : RenderStageState :=
  { plugin_id := "render_pipeline_internal"
    stage_id := "AmbientStage"
    active := true
    targets := [("render_pipeline_internal:AmbientStage:Compute",
                 { name := "render_pipeline_internal:AmbientStage:Compute",
                   active := false, resize_considered := false })]
    log := [] }

/-- Claim C6 (counterexample): with the stage flag already equal to the
argument, set_active is a no-op, so an owned target whose active state is out
of sync is not set to the argument; the claim's universal statement fails at
this concrete stage with b = true. -/
theorem set_active_claim_counterexample :
    ¬ ((set_active c6_stage true).active = true ∧
       ∀ kv ∈ (set_active c6_stage true).targets, kv.2.active = true) := by
  decide

/-- Claim C6 (amended): after set_active(b) the stage's active flag equals b;
when b differs from the current flag every owned render target has its active
state set to b; when b equals the current flag set_active changes nothing (and
hence touches no target). -/
theorem set_active_spec (s : RenderStageState) (b : Bool) :
    (set_active s b).active = b
    ∧ (s.active ≠ b → ∀ kv ∈ (set_active s b).targets, kv.2.active = b)
    ∧ (s.active = b → set_active s b = s) := by
  refine ⟨?_, ?_, ?_⟩
  · by_cases h : s.active = b
    · simp [set_active, h]
    · simp [set_active, h]
  · intro h kv hkv
    simp only [set_active, if_pos h] at hkv
    rcases List.mem_map.mp hkv with ⟨kv0, _, rfl⟩
    rfl
  · intro h
    simp [set_active, h]

/-- Closed witness for the amended C6 theorem at concrete inputs. -/
theorem set_active_spec_witness :
    ((set_active { c6_stage with active := false } true).active = true
      ∧ ∀ kv ∈ (set_active { c6_stage with active := false } true).targets,
          kv.2.active = true)
    ∧ set_active c6_stage true = c6_stage := by
  refine ⟨⟨(set_active_spec { c6_stage with active := false } true).1, ?_⟩, ?_⟩
  · exact (set_active_spec { c6_stage with active := false } true).2.1 (by decide)
  · exact (set_active_spec c6_stage true).2.2 rfl

/-- Keys of a stage's target map. -/
def target_keys (s : RenderStageState) : List String :=
  s.targets.map Prod.fst

theorem find?_key_eq_none_of_not_mem {l : List (String × RenderTarget)} {k : String}
    (h : (l.find? fun kv => kv.1 == k) = none) : k ∉ l.map Prod.fst := by
  intro hmem
  rcases List.mem_map.mp hmem with ⟨kv, hkv, hfst⟩
  have := List.find?_eq_none.mp h kv hkv
  simp [hfst] at this

/-- Claim C3: create_target(name) registers a fresh target under the fully
qualified name "<plugin_id>:<stage_id>:<name>" and returns it; if that name is
already present it logs an error, returns none (nullptr) and leaves the target
map unchanged; consequently distinct entries keep distinct fully qualified
names. -/
theorem create_target_spec (s : RenderStageState) (name : String) :
    ((s.targets.find? fun kv =>
        kv.1 == s.plugin_id ++ ":" ++ s.stage_id ++ ":" ++ name).isSome →
      (create_target s name).1 = none
      ∧ (create_target s name).2.targets = s.targets
      ∧ (create_target s name).2.log =
          s.log ++ ["Overriding existing target: "
            ++ (s.plugin_id ++ ":" ++ s.stage_id ++ ":" ++ name)])
    ∧ ((s.targets.find? fun kv =>
          kv.1 == s.plugin_id ++ ":" ++ s.stage_id ++ ":" ++ name) = none →
      (create_target s name).1 =
          some (mk_render_target (s.plugin_id ++ ":" ++ s.stage_id ++ ":" ++ name))
      ∧ (create_target s name).2.targets =
          s.targets ++ [(s.plugin_id ++ ":" ++ s.stage_id ++ ":" ++ name,
            mk_render_target (s.plugin_id ++ ":" ++ s.stage_id ++ ":" ++ name))])
    ∧ ((target_keys s).Nodup → (target_keys (create_target s name).2).Nodup) := by
  refine ⟨?_, ?_, ?_⟩
  · intro h
    simp [create_target, h]
  · intro h
    simp [create_target, h]
  · intro hnd
    by_cases h : (s.targets.find? fun kv =>
        kv.1 == s.plugin_id ++ ":" ++ s.stage_id ++ ":" ++ name).isSome
    · simpa [target_keys, create_target, h] using hnd
    · have hnone : (s.targets.find? fun kv =>
          kv.1 == s.plugin_id ++ ":" ++ s.stage_id ++ ":" ++ name) = none := by
        cases hf : s.targets.find? fun kv =>
            kv.1 == s.plugin_id ++ ":" ++ s.stage_id ++ ":" ++ name
        · rfl
        · exact absurd (by simp [hf]) h
      have hnotmem := find?_key_eq_none_of_not_mem hnone
      simp only [target_keys, create_target, hnone]
      simp only [Option.isSome_none, Bool.false_eq_true, if_false, List.map_append]
      exact List.Nodup.append hnd (by simp) (by
        intro a ha hb
        simp at hb
        subst hb
        exact hnotmem ha)

/-- Closed witness for the C3 theorem: an empty stage accepts a fresh target,
and a second create_target with the same name is rejected without change. -/
theorem create_target_spec_witness :
    ((create_target { c6_stage with targets := [] } "Compute").1 =
        some (mk_render_target "render_pipeline_internal:AmbientStage:Compute")
      ∧ (create_target { c6_stage with targets := [] } "Compute").2.targets =
          [("render_pipeline_internal:AmbientStage:Compute",
            mk_render_target "render_pipeline_internal:AmbientStage:Compute")])
    ∧ ((create_target c6_stage "Compute").1 = none
      ∧ (create_target c6_stage "Compute").2.targets = c6_stage.targets) := by
  constructor
  · have h := (create_target_spec { c6_stage with targets := [] } "Compute").2.1 (by decide)
    exact ⟨h.1, by simpa using h.2⟩
  · have h := (create_target_spec c6_stage "Compute").1 (by decide)
    exact ⟨h.1, h.2.1⟩

/-- Claim C2: handle_window_resize first performs the set_dimensions hook and
then a consider_resize call on every target the stage owns; in the resulting
state every owned render target has been resized. -/
theorem handle_window_resize_spec
    (set_dimensions : RenderStageState → RenderStageState) (s : RenderStageState) :
    ((handle_window_resize set_dimensions s).2.head? =
        some StageCall.set_dimensions_call)
    ∧ (∀ kv ∈ (set_dimensions s).targets,
        StageCall.consider_resize_call kv.1 ∈
          (handle_window_resize set_dimensions s).2.tail)
    ∧ ((handle_window_resize set_dimensions s).1.targets =
        (set_dimensions s).targets.map fun kv => (kv.1, consider_resize kv.2))
    ∧ (∀ kv ∈ (handle_window_resize set_dimensions s).1.targets,
        kv.2.resize_considered = true) := by
  refine ⟨rfl, ?_, rfl, ?_⟩
  · intro kv hkv
    simp only [handle_window_resize, List.tail_cons]
    exact List.mem_map.mpr ⟨kv, hkv, rfl⟩
  · intro kv hkv
    simp only [handle_window_resize] at hkv
    rcases List.mem_map.mp hkv with ⟨kv0, _, rfl⟩
    rfl

/-- Closed witness for the C2 theorem at a concrete stage and identity hook. -/
theorem handle_window_resize_spec_witness :
    ((handle_window_resize id c6_stage).2.head? = some StageCall.set_dimensions_call)
    ∧ (StageCall.consider_resize_call "render_pipeline_internal:AmbientStage:Compute" ∈
        (handle_window_resize id c6_stage).2.tail)
    ∧ (∀ kv ∈ (handle_window_resize id c6_stage).1.targets,
        kv.2.resize_considered = true) := by
  refine ⟨(handle_window_resize_spec id c6_stage).1, ?_, ?_⟩
  · exact (handle_window_resize_spec id c6_stage).2.1
      ("render_pipeline_internal:AmbientStage:Compute",
       { name := "render_pipeline_internal:AmbientStage:Compute",
         active := false, resize_considered := false }) (by decide)
  · exact (handle_window_resize_spec id c6_stage).2.2.2

/-! Shader path handling (RenderStage::get_shader_handle, render_stage.cpp
lines 134-178). -/

/-- Substring containment, modelling `source.to_os_generic().find(p) != npos`
on unix-style paths (find on std::string is plain substring search). -/
def str_contains_sub (hay needle : String) : Bool :=
  hay.toList.tails.any fun t => needle.toList.isPrefixOf t

/-- The static prefix array of get_shader_handle. -/
def rp_path_markers : List String :=
  ["/$$rpconfig", "/$$rp/shader", "/$$rptemp"]

/-- Modelled Filename::operator/ of the external Panda3D Filename class: join
two unix-style paths with a single separator. -/
def path_join (base p : String) : String :=
  if base.toList.getLast? = some '/' then base ++ p else base ++ "/" ++ p

/-- Per-argument transformation of get_shader_handle's first loop: an argument
containing one of the markers is kept verbatim, any other argument is joined
onto the base path. -/
def transform_shader_arg (base_path source : String) : String :=
  if rp_path_markers.any (fun mk => str_contains_sub source mk) then source
  else path_join base_path source

/-- RenderStage::get_shader_handle (render_stage.cpp lines 134-178).  The
NVIDIA_STEREO_VIEW define of the stage manager is passed in as a string value;
Except.error models the thrown std::runtime_error. -/
def get_shader_handle (nvidia_stereo_view : String) (base_path : String)
    (args : List String) (stereo_post use_post_gs : Bool) :
    Except String (List String) :=
  if args.length = 0 ∨ 3 < args.length then
    Except.error "args.size() <= 0 || args.size() > 3"
  else
    let path_args := args.map (transform_shader_arg base_path)
    if args.length = 1 then
      if stereo_post then
        let pa := "/$$rp/shader/default_post_process_stereo.vert.glsl" :: path_args
        if nvidia_stereo_view = "0" ∨ use_post_gs then
          Except.ok (pa ++ ["/$$rp/shader/default_post_process_stereo.geom.glsl"])
        else
          Except.ok pa
      else
        Except.ok ("/$$rp/shader/default_post_process.vert.glsl" :: path_args)
    else
      Except.ok path_args

/-- RenderStage::load_shader (render_stage.cpp lines 108-111): shader handle
with base path "/$$rp/shader/". -/
def load_shader (nvidia_stereo_view : String) (args : List String)
    (stereo_post use_post_gs : Bool) : Except String (List String) :=
  get_shader_handle nvidia_stereo_view "/$$rp/shader/" args stereo_post use_post_gs

/-- Claim C8: get_shader_handle throws exactly when the argument list is empty
or longer than three; with a single argument it prepends the default
post-process vertex shader (the stereo variant under stereo_post, additionally
appending the stereo geometry shader when the NVIDIA_STEREO_VIEW define is "0"
or use_post_gs holds); with two or three arguments it only transforms them;
and an argument containing none of the special markers gets the base path
prefixed while an argument containing one is kept verbatim. -/
theorem get_shader_handle_spec (nv base : String) (args : List String)
    (sp gs : Bool) :
    ((∃ e, get_shader_handle nv base args sp gs = Except.error e) ↔
      (args.length = 0 ∨ 3 < args.length))
    ∧ (∀ a, args = [a] →
        get_shader_handle nv base args sp gs =
          Except.ok
            ((if sp then ["/$$rp/shader/default_post_process_stereo.vert.glsl"]
              else ["/$$rp/shader/default_post_process.vert.glsl"])
             ++ [transform_shader_arg base a]
             ++ (if sp = true ∧ (nv = "0" ∨ gs = true) then
                  ["/$$rp/shader/default_post_process_stereo.geom.glsl"]
                 else [])))
    ∧ ((args.length = 2 ∨ args.length = 3) →
        get_shader_handle nv base args sp gs =
          Except.ok (args.map (transform_shader_arg base)))
    ∧ (∀ a, (∀ mk ∈ rp_path_markers, str_contains_sub a mk = false) →
        transform_shader_arg base a = path_join base a)
    ∧ (∀ a mk, mk ∈ rp_path_markers → str_contains_sub a mk = true →
        transform_shader_arg base a = a) := by
  refine ⟨?_, ?_, ?_, ?_, ?_⟩
  · constructor
    · rintro ⟨e, he⟩
      by_contra hlen
      push_neg at hlen
      simp only [get_shader_handle, if_neg (by omega : ¬ (args.length = 0 ∨ 3 < args.length))] at he
      split at he
      · split at he
        · split at he <;> exact Except.noConfusion he
        · exact Except.noConfusion he
      · exact Except.noConfusion he
    · intro h
      refine ⟨"args.size() <= 0 || args.size() > 3", ?_⟩
      simp only [get_shader_handle]
      rw [if_pos h]
  · rintro a rfl
    cases sp with
    | false => simp [get_shader_handle]
    | true =>
      by_cases hc : nv = "0" ∨ gs = true
      · simp [get_shader_handle, hc]
      · push_neg at hc
        have hgs : gs = false := by
          cases gs
          · rfl
          · exact absurd rfl hc.2
        subst hgs
        simp [get_shader_handle, hc.1]
  · intro h
    have h0 : ¬ (args.length = 0 ∨ 3 < args.length) := by omega
    have h1 : args.length ≠ 1 := by omega
    simp only [get_shader_handle]
    rw [if_neg h0, if_neg h1]
  · intro a ha
    have : rp_path_markers.any (fun mk => str_contains_sub a mk) = false := by
      simp only [List.any_eq_false]
      intro mk hmk
      simp [ha mk hmk]
    simp [transform_shader_arg, this]
  · intro a mk hmk hsub
    have : rp_path_markers.any (fun m => str_contains_sub a m) = true :=
      List.any_eq_true.mpr ⟨mk, hmk, hsub⟩
    simp [transform_shader_arg, this]

/-- Closed witness for the C8 theorem: the empty list errors, a single plain
argument gets the default vertex shader prepended and the base path prefixed,
and a "/$$rptemp" argument is kept verbatim. -/
theorem get_shader_handle_spec_witness :
    (∃ e, get_shader_handle "1" "/$$rp/shader/" [] false false = Except.error e)
    ∧ get_shader_handle "1" "/base" ["ambient.frag.glsl"] false false =
        Except.ok ["/$$rp/shader/default_post_process.vert.glsl",
                   "/base/ambient.frag.glsl"]
    ∧ transform_shader_arg "/base" "/$$rptemp/x.frag.glsl" = "/$$rptemp/x.frag.glsl" := by
  refine ⟨?_, ?_, ?_⟩
  · exact (get_shader_handle_spec "1" "/$$rp/shader/" [] false false).1.mpr (by simp)
  · have h := (get_shader_handle_spec "1" "/base" ["ambient.frag.glsl"] false false).2.1
      "ambient.frag.glsl" rfl
    have ht : transform_shader_arg "/base" "ambient.frag.glsl" =
        path_join "/base" "ambient.frag.glsl" := by
      apply (get_shader_handle_spec "1" "/base" ["ambient.frag.glsl"] false false).2.2.2.1
      decide
    rw [ht] at h
    rw [h]
    have hpj : path_join "/base" "ambient.frag.glsl" = "/base/ambient.frag.glsl" := by
      decide
    simp [hpj]
  · exact (get_shader_handle_spec "1" "/base" [] false false).2.2.2.2
      "/$$rptemp/x.frag.glsl" "/$$rptemp" (by decide) (by decide)

/-! UpdatePreviousPipesStage (update_previous_pipes_stage.cpp). -/

/-- UpdatePreviousPipesStage::get_sampler_type (lines 132-148): GLSL uniform
type for a texture, writeonly image variants when can_write holds. -/
def get_sampler_type (tex : Texture) (can_write : Bool) : String :=
  if can_write then
    if tex.texture_type = TextureType.tt_2d_texture_array then "writeonly image2DArray"
    else "writeonly image2D"
  else
    if tex.texture_type = TextureType.tt_2d_texture_array then "sampler2DArray"
    else "sampler2D"

/-- UpdatePreviousPipesStage::get_sampler_lookup (lines 150-154). -/
def get_sampler_lookup (dest_name sampler_name coord_var : String) : String :=
  "vec4 " ++ dest_name ++ " = texelFetch(" ++ sampler_name ++ ", " ++ coord_var ++ ", 0);"

/-- UpdatePreviousPipesStage::get_store_code (lines 156-160). -/
def get_store_code (sampler_name coord_var data_var : String) : String :=
  "imageStore(" ++ sampler_name ++ ", " ++ coord_var ++ ", vec4(" ++ data_var ++ "));"

/-- The two uniform declarations pushed for transfer pair i in
reload_shaders' loop (lines 79-80). -/
def upp_uniform_pair (i : Nat) (ft : Texture × Texture) : String × String :=
  (get_sampler_type ft.1 false ++ " " ++ "SrcTex" ++ toString i,
   get_sampler_type ft.2 true ++ " " ++ "DestTex" ++ toString i)

/-- Uniform pairs for the transfer list starting at index i (the loop runs i
from 0 to transfers_.size()). -/
def upp_uniform_pairs : Nat → List (Texture × Texture) → List (String × String)
  | _, [] => []
  | i, ft :: rest => upp_uniform_pair i ft :: upp_uniform_pairs (i + 1) rest

/-- Interleave the Src/Dest uniform pairs in push order. -/
def pair_flatten : List (String × String) → List String
  | [] => []
  | ab :: rest => ab.1 :: ab.2 :: pair_flatten rest

/-- The `uniforms` vector built by reload_shaders (lines 76-80). -/
def upp_uniforms (transfers : List (Texture × Texture)) : List String :=
  pair_flatten (upp_uniform_pairs 0 transfers)

/-- The copy-code lines pushed for transfer pair i (lines 82-97). -/
def upp_lines_for (i : Nat) (ft : Texture × Texture) : List String :=
  ["\n  // Copying " ++ ft.1.name ++ " to " ++ ft.2.name]
  ++ (if ft.1.texture_type = TextureType.tt_2d_texture_array then
        ["for (int z = 0, z_end=textureSize(SrcTex" ++ toString i
           ++ ", 0).z; z < z_end; ++z) \x7b",
         get_sampler_lookup ("data" ++ toString i) ("SrcTex" ++ toString i)
           "ivec3(coord_2d_int, z)",
         get_store_code ("DestTex" ++ toString i) "ivec3(coord_2d_int, z)"
           ("data" ++ toString i),
         "\x7d\n"]
      else
        [get_sampler_lookup ("data" ++ toString i) ("SrcTex" ++ toString i)
           "coord_2d_int",
         get_store_code ("DestTex" ++ toString i) "coord_2d_int"
           ("data" ++ toString i)])
  ++ ["\n"]

/-- The `lines` vector built by reload_shaders. -/
def upp_lines : Nat → List (Texture × Texture) → List String
  | _, [] => []
  | i, ft :: rest => upp_lines_for i ft ++ upp_lines (i + 1) rest

/-- The full autogenerated fragment shader text (lines 100-115). -/
def upp_fragment (transfers : List (Texture × Texture)) : String :=
  "#version 430\n\n// Autogenerated, do not edit! Your changes will be lost.\n\n"
  ++ String.join ((upp_uniforms transfers).map fun u => "uniform " ++ u ++ ";\n")
  ++ ("\nvoid main() \x7b\n  const ivec2 coord_2d_int = ivec2(gl_FragCoord.xy);\n"
      ++ String.join ((upp_lines 0 transfers).map fun l => "  " ++ l ++ "\n")
      ++ "\x7d\n")

/-- Path the generated shader is written to (line 118). -/
def upp_shader_dest : String := "/$$rptemp/$$update_previous_pipes.frag.glsl"

/-- Observable outcome of UpdatePreviousPipesStage::reload_shaders: the file
written and its content, and the argument the stage target's shader is loaded
from.  The error branch of the file write only logs and is not modelled. -/
structure UppReloadResult where
  written_path : String
  written_text : String
  target_shader : Except String (List String)
deriving Repr

/-- UpdatePreviousPipesStage::reload_shaders (lines 70-130): generate the
fragment shader from the transfer list, write it to upp_shader_dest, and set
the target's shader to load_shader({shader_dest}).  nvidia_stereo_view is the
stage-manager define threaded through load_shader (unused here because
stereo_post defaults to false). -/
def upp_reload_shaders (nvidia_stereo_view : String)
    (transfers : List (Texture × Texture)) : UppReloadResult :=
  { written_path := upp_shader_dest
    written_text := upp_fragment transfers
    target_shader := load_shader nvidia_stereo_view [upp_shader_dest] false false }

theorem pair_flatten_length (l : List (String × String)) :
    (pair_flatten l).length = 2 * l.length := by
  induction l with
  | nil => rfl
  | cons ab rest ih => simp [pair_flatten, ih, Nat.mul_succ]

theorem pair_flatten_getElem_even (l : List (String × String)) (i : Nat) :
    (pair_flatten l)[2 * i]? = (l[i]?).map Prod.fst := by
  induction l generalizing i with
  | nil => simp [pair_flatten]
  | cons ab rest ih =>
    cases i with
    | zero => simp [pair_flatten]
    | succ j =>
      have h2 : 2 * (j + 1) = 2 * j + 1 + 1 := by omega
      simp [pair_flatten, h2, ih]

theorem pair_flatten_getElem_odd (l : List (String × String)) (i : Nat) :
    (pair_flatten l)[2 * i + 1]? = (l[i]?).map Prod.snd := by
  induction l generalizing i with
  | nil => simp [pair_flatten]
  | cons ab rest ih =>
    cases i with
    | zero => simp [pair_flatten]
    | succ j =>
      have h2 : 2 * (j + 1) + 1 = 2 * j + 1 + 1 + 1 := by omega
      simp [pair_flatten, h2, ih]

theorem upp_uniform_pairs_length (l : List (Texture × Texture)) (k : Nat) :
    (upp_uniform_pairs k l).length = l.length := by
  induction l generalizing k with
  | nil => rfl
  | cons ft rest ih => simp [upp_uniform_pairs, ih]

theorem upp_uniform_pairs_getElem (l : List (Texture × Texture)) (k i : Nat) :
    (upp_uniform_pairs k l)[i]? = (l[i]?).map (upp_uniform_pair (k + i)) := by
  induction l generalizing k i with
  | nil => simp [upp_uniform_pairs]
  | cons ft rest ih =>
    cases i with
    | zero => simp [upp_uniform_pairs]
    | succ j =>
      have hk : k + (j + 1) = (k + 1) + j := by omega
      simp [upp_uniform_pairs, ih, hk]

/-- Claim C5: for n transfer pairs, reload_shaders declares exactly 2n
uniforms; the uniform at slot 2i is the read uniform SrcTexi whose sampler
type is sampler2DArray exactly when the source is a 2D texture array (else
sampler2D) and the one at slot 2i+1 is the write uniform DestTexi of type
writeonly image2DArray or writeonly image2D correspondingly; the shader text
containing those declarations is written to
"/$$rptemp/$$update_previous_pipes.frag.glsl"; and the stage target's shader
is loaded from that file (load_shader prepends the default post-process
vertex shader). -/
theorem upp_reload_shaders_spec (nv : String)
    (transfers : List (Texture × Texture)) :
    (upp_uniforms transfers).length = 2 * transfers.length
    ∧ (∀ i ft, transfers[i]? = some ft →
        (upp_uniforms transfers)[2 * i]? =
          some ((if ft.1.texture_type = TextureType.tt_2d_texture_array then
                   "sampler2DArray" else "sampler2D") ++ " " ++ "SrcTex" ++ toString i)
        ∧ (upp_uniforms transfers)[2 * i + 1]? =
          some ((if ft.2.texture_type = TextureType.tt_2d_texture_array then
                   "writeonly image2DArray" else "writeonly image2D")
                ++ " " ++ "DestTex" ++ toString i))
    ∧ (upp_reload_shaders nv transfers).written_path =
        "/$$rptemp/$$update_previous_pipes.frag.glsl"
    ∧ (∃ tail, (upp_reload_shaders nv transfers).written_text =
        "#version 430\n\n// Autogenerated, do not edit! Your changes will be lost.\n\n"
        ++ String.join ((upp_uniforms transfers).map fun u => "uniform " ++ u ++ ";\n")
        ++ tail)
    ∧ (upp_reload_shaders nv transfers).target_shader =
        Except.ok ["/$$rp/shader/default_post_process.vert.glsl", upp_shader_dest] := by
  refine ⟨?_, ?_, rfl, ⟨_, rfl⟩, ?_⟩
  · rw [upp_uniforms, pair_flatten_length, upp_uniform_pairs_length]
  · intro i ft hft
    constructor
    · rw [upp_uniforms, pair_flatten_getElem_even, upp_uniform_pairs_getElem]
      simp [hft, upp_uniform_pair, get_sampler_type]
    · rw [upp_uniforms, pair_flatten_getElem_odd, upp_uniform_pairs_getElem]
      simp [hft, upp_uniform_pair, get_sampler_type]
  · have h := (get_shader_handle_spec nv "/$$rp/shader/" [upp_shader_dest]
        false false).2.1 upp_shader_dest rfl
    have ht : transform_shader_arg "/$$rp/shader/" upp_shader_dest = upp_shader_dest :=
      (get_shader_handle_spec nv "/$$rp/shader/" [] false false).2.2.2.2
        upp_shader_dest "/$$rptemp" (by decide) (by decide)
    simp only [upp_reload_shaders, load_shader]
    rw [h, ht]
    simp

/-- Closed witness for the C5 theorem at a concrete two-pair transfer list. -/
theorem upp_reload_shaders_spec_witness :
    (upp_uniforms
        [({ name := "ScatteringIBLDiffuse", texture_type := TextureType.tt_cube_map,
            x_size := 16, y_size := 16, z_size := 1 },
          { name := "Previous-ScatteringIBLDiffuse",
            texture_type := TextureType.tt_2d_texture, x_size := 16, y_size := 16,
            z_size := 1 }),
         ({ name := "GBuffer", texture_type := TextureType.tt_2d_texture_array,
            x_size := 16, y_size := 16, z_size := 2 },
          { name := "Previous-GBuffer", texture_type := TextureType.tt_2d_texture_array,
            x_size := 16, y_size := 16, z_size := 2 })]).length = 2 * 2
    ∧ (upp_uniforms
        [({ name := "ScatteringIBLDiffuse", texture_type := TextureType.tt_cube_map,
            x_size := 16, y_size := 16, z_size := 1 },
          { name := "Previous-ScatteringIBLDiffuse",
            texture_type := TextureType.tt_2d_texture, x_size := 16, y_size := 16,
            z_size := 1 }),
         ({ name := "GBuffer", texture_type := TextureType.tt_2d_texture_array,
            x_size := 16, y_size := 16, z_size := 2 },
          { name := "Previous-GBuffer", texture_type := TextureType.tt_2d_texture_array,
            x_size := 16, y_size := 16, z_size := 2 })])[2 * 1]? =
        some "sampler2DArray SrcTex1"
    ∧ (upp_reload_shaders "1" []).target_shader =
        Except.ok ["/$$rp/shader/default_post_process.vert.glsl", upp_shader_dest] := by
  refine ⟨(upp_reload_shaders_spec "1" _).1, ?_, (upp_reload_shaders_spec "1" []).2.2.2.2⟩
  have h := ((upp_reload_shaders_spec "1"
      [({ name := "ScatteringIBLDiffuse", texture_type := TextureType.tt_cube_map,
          x_size := 16, y_size := 16, z_size := 1 },
        { name := "Previous-ScatteringIBLDiffuse",
          texture_type := TextureType.tt_2d_texture, x_size := 16, y_size := 16,
          z_size := 1 }),
       ({ name := "GBuffer", texture_type := TextureType.tt_2d_texture_array,
          x_size := 16, y_size := 16, z_size := 2 },
        { name := "Previous-GBuffer", texture_type := TextureType.tt_2d_texture_array,
          x_size := 16, y_size := 16, z_size := 2 })]).2.1 1
      ({ name := "GBuffer", texture_type := TextureType.tt_2d_texture_array,
         x_size := 16, y_size := 16, z_size := 2 },
       { name := "Previous-GBuffer", texture_type := TextureType.tt_2d_texture_array,
         x_size := 16, y_size := 16, z_size := 2 }) rfl).1
  rw [h]
  rfl

/-- UpdatePreviousPipesStage state: the transfer pair list `transfers_` and
the stage's target shader (the rest of the object, including the target map,
lives in RenderStageState and is untouched by set_dimensions). -/
structure UppStageState where
  transfers : List (Texture × Texture)
  target_shader : Option (Except String (List String))
deriving Repr

/-- Loop body of UpdatePreviousPipesStage::set_dimensions for one transfer
pair: set the destination's x and y sizes to the resolution, then copy the
source z size if the destination is a 2D texture array. -/
def upp_resize_dest (resolution : Int × Int) (ft : Texture × Texture) : Texture :=
  let dst1 := { ft.2 with x_size := resolution.1, y_size := resolution.2 }
  if dst1.texture_type = TextureType.tt_2d_texture_array then
    { dst1 with z_size := ft.1.z_size }
  else dst1

/-- UpdatePreviousPipesStage::set_dimensions (lines 58-68): set every
destination texture's x and y sizes to the global resolution, and its z size
to the source's z size when the destination is a 2D texture array. -/
def upp_set_dimensions (resolution : Int × Int) (s : UppStageState) : UppStageState :=
  { s with transfers := s.transfers.map fun ft => (ft.1, upp_resize_dest resolution ft) }

/-- Claim C7: set_dimensions resizes every destination texture to the global
resolution in x and y, copies the source z size only for 2D-texture-array
destinations, and leaves the source textures, the destination's identity
fields, the pair order, and the rest of the stage state unchanged. -/
theorem upp_set_dimensions_spec (resolution : Int × Int) (s : UppStageState) :
    ((upp_set_dimensions resolution s).transfers.length = s.transfers.length)
    ∧ ((upp_set_dimensions resolution s).transfers.map Prod.fst =
        s.transfers.map Prod.fst)
    ∧ (∀ (i : Nat) (ft : Texture × Texture), s.transfers[i]? = some ft →
        ∃ d, (upp_set_dimensions resolution s).transfers[i]? = some (ft.1, d)
          ∧ d.x_size = resolution.1
          ∧ d.y_size = resolution.2
          ∧ d.z_size = (if ft.2.texture_type = TextureType.tt_2d_texture_array then
              ft.1.z_size else ft.2.z_size)
          ∧ d.texture_type = ft.2.texture_type
          ∧ d.name = ft.2.name)
    ∧ (upp_set_dimensions resolution s).target_shader = s.target_shader := by
  refine ⟨by simp [upp_set_dimensions], ?_, ?_, rfl⟩
  · simp only [upp_set_dimensions, List.map_map]
    apply List.map_congr_left
    intro ft _
    rfl
  · intro i ft hft
    refine ⟨upp_resize_dest resolution ft, ?_, ?_, ?_, ?_, ?_, ?_⟩
    · simp [upp_set_dimensions, List.getElem?_map, hft]
    · by_cases h : ft.2.texture_type = TextureType.tt_2d_texture_array <;>
        simp [upp_resize_dest, h]
    · by_cases h : ft.2.texture_type = TextureType.tt_2d_texture_array <;>
        simp [upp_resize_dest, h]
    · by_cases h : ft.2.texture_type = TextureType.tt_2d_texture_array <;>
        simp [upp_resize_dest, h]
    · by_cases h : ft.2.texture_type = TextureType.tt_2d_texture_array <;>
        simp [upp_resize_dest, h]
    · by_cases h : ft.2.texture_type = TextureType.tt_2d_texture_array <;>
        simp [upp_resize_dest, h]

/-- Closed witness for the C7 theorem at a concrete transfer pair. -/
theorem upp_set_dimensions_spec_witness :
    ∃ d, (upp_set_dimensions (128, 64)
        { transfers :=
            [({ name := "GBuffer", texture_type := TextureType.tt_2d_texture_array,
                x_size := 16, y_size := 16, z_size := 2 },
              { name := "Previous-GBuffer",
                texture_type := TextureType.tt_2d_texture_array,
                x_size := 16, y_size := 16, z_size := 1 })],
          target_shader := none }).transfers[0]? =
      some (({ name := "GBuffer", texture_type := TextureType.tt_2d_texture_array,
               x_size := 16, y_size := 16, z_size := 2 } : Texture), d)
      ∧ d.x_size = 128 ∧ d.y_size = 64 ∧ d.z_size = 2 := by
  obtain ⟨d, hd, hx, hy, hz, _, _⟩ := (upp_set_dimensions_spec (128, 64)
      { transfers :=
          [({ name := "GBuffer", texture_type := TextureType.tt_2d_texture_array,
              x_size := 16, y_size := 16, z_size := 2 },
            { name := "Previous-GBuffer",
              texture_type := TextureType.tt_2d_texture_array,
              x_size := 16, y_size := 16, z_size := 1 })],
        target_shader := none }).2.2.1 0
      ({ name := "GBuffer", texture_type := TextureType.tt_2d_texture_array,
         x_size := 16, y_size := 16, z_size := 2 },
       { name := "Previous-GBuffer", texture_type := TextureType.tt_2d_texture_array,
         x_size := 16, y_size := 16, z_size := 1 }) rfl
  exact ⟨d, hd, hx, hy, by simpa using hz⟩

/-! EnvProbesPlugin (env_probes_plugin.cpp). -/

/-- A render stage as the stage graph sees it: its id, the RequireType vectors
for pipes and inputs, and the pipes it produces. -/
structure StageDecl where
  stage_id : String
  required_pipes : List String
  required_inputs : List String
  produced_pipes : List String
deriving DecidableEq, Repr

/-- The stages registered with the pipeline's stage manager. -/
structure PipelineStages where
  stages : List StageDecl
deriving DecidableEq, Repr

/-- The environment capture stage after EnvProbesPlugin::Impl::setup_stages
(lines 102-112) has appended the conditional requirements: the scattering
pipes when the scattering plugin is enabled, then the PSSM shadow pipe and
MVP input when the pssm plugin is enabled.  capture_base is the stage as
constructed (environment_capture_stage.cpp is not among the sources, so its
static base requirement vectors stay abstract). -/
def env_probes_capture_stage (capture_base : StageDecl)
    (scattering_enabled pssm_enabled : Bool) : StageDecl :=
  { capture_base with
    required_pipes := capture_base.required_pipes
      ++ (if scattering_enabled then ["ScatteringIBLSpecular", "ScatteringIBLDiffuse"]
          else [])
      ++ (if pssm_enabled then ["PSSMSceneSunShadowMapPCF"] else []),
    required_inputs := capture_base.required_inputs
      ++ (if pssm_enabled then ["PSSMSceneSunShadowMVP"] else []) }

/-- EnvProbesPlugin::Impl::setup_stages (lines 84-115): add the environment
capture stage, the cull-probes stage and the apply-envprobes stage to the
pipeline, then append the conditional requirements to the capture stage
(the add_stage calls precede the push_backs, but the shared stage object the
pipeline holds ends up with the appended requirements). -/
def env_probes_setup_stages (capture_base cull_base apply_base : StageDecl)
    (scattering_enabled pssm_enabled : Bool) (p : PipelineStages) : PipelineStages :=
  { p with stages := p.stages
      ++ [env_probes_capture_stage capture_base scattering_enabled pssm_enabled,
          cull_base, apply_base] }

/-- Claim C4: setup_stages adds exactly three stages (capture, cull-probes,
apply-envprobes); the capture stage's required pipes gain
ScatteringIBLSpecular and ScatteringIBLDiffuse exactly when the scattering
plugin is enabled, and its required pipes gain PSSMSceneSunShadowMapPCF and
its required inputs gain PSSMSceneSunShadowMVP exactly when the pssm plugin
is enabled. -/
theorem env_probes_setup_stages_spec (capture_base cull_base apply_base : StageDecl)
    (sc ps : Bool) (p : PipelineStages) :
    ((env_probes_setup_stages capture_base cull_base apply_base sc ps p).stages.length =
      p.stages.length + 3)
    ∧ ((env_probes_setup_stages capture_base cull_base apply_base sc ps p).stages =
        p.stages ++ [env_probes_capture_stage capture_base sc ps, cull_base, apply_base])
    ∧ ("ScatteringIBLSpecular" ∉ capture_base.required_pipes →
        ("ScatteringIBLSpecular" ∈
            (env_probes_capture_stage capture_base sc ps).required_pipes ↔ sc = true))
    ∧ ("ScatteringIBLDiffuse" ∉ capture_base.required_pipes →
        ("ScatteringIBLDiffuse" ∈
            (env_probes_capture_stage capture_base sc ps).required_pipes ↔ sc = true))
    ∧ ("PSSMSceneSunShadowMapPCF" ∉ capture_base.required_pipes →
        ("PSSMSceneSunShadowMapPCF" ∈
            (env_probes_capture_stage capture_base sc ps).required_pipes ↔ ps = true))
    ∧ ("PSSMSceneSunShadowMVP" ∉ capture_base.required_inputs →
        ("PSSMSceneSunShadowMVP" ∈
            (env_probes_capture_stage capture_base sc ps).required_inputs ↔ ps = true)) := by
  refine ⟨by simp [env_probes_setup_stages], rfl, ?_, ?_, ?_, ?_⟩
  · intro hbase
    cases sc <;> cases ps <;> simp [env_probes_capture_stage, hbase]
  · intro hbase
    cases sc <;> cases ps <;> simp [env_probes_capture_stage, hbase]
  · intro hbase
    cases sc <;> cases ps <;> simp [env_probes_capture_stage, hbase]
  · intro hbase
    cases sc <;> cases ps <;> simp [env_probes_capture_stage, hbase]

/-- Empty-base capture stage used in the C4 witness. -/
def c4_capture_base : StageDecl :=
  { stage_id := "EnvironmentCaptureStage", required_pipes := [],
    required_inputs := [], produced_pipes := [] }

/-- Cull stage used in the C4 witness. -/
def c4_cull_base : StageDecl :=
  { stage_id := "CullProbesStage", required_pipes := [],
    required_inputs := [], produced_pipes := [] }

/-- Apply stage used in the C4 witness. -/
def c4_apply_base : StageDecl :=
  { stage_id := "ApplyEnvprobesStage", required_pipes := [],
    required_inputs := [], produced_pipes := [] }

/-- Closed witness for the C4 theorem: with scattering enabled and pssm
disabled, three stages are added and only the scattering pipes appear. -/
theorem env_probes_setup_stages_spec_witness :
    ((env_probes_setup_stages c4_capture_base c4_cull_base c4_apply_base true false
        { stages := [] }).stages.length = 0 + 3)
    ∧ ("ScatteringIBLSpecular" ∈
        (env_probes_capture_stage c4_capture_base true false).required_pipes ↔ true = true)
    ∧ ("PSSMSceneSunShadowMapPCF" ∈
        (env_probes_capture_stage c4_capture_base true false).required_pipes ↔ false = true)
    ∧ ("PSSMSceneSunShadowMVP" ∈
        (env_probes_capture_stage c4_capture_base true false).required_inputs ↔ false = true) := by
  have h := env_probes_setup_stages_spec c4_capture_base c4_cull_base c4_apply_base
    true false { stages := [] }
  exact ⟨h.1, h.2.2.1 (by decide), h.2.2.2.2.1 (by decide), h.2.2.2.2.2 (by decide)⟩

/-! ProbeManager (the probe_manager.cpp translation unit, src/unnamed/part_002). -/

/-- EnvironmentProbe state the ProbeManager touches: last_update, the slot
index, and an abstract handle for its bounding volume (the geometry itself is
an external engine object). -/
structure EnvironmentProbe where
  last_update : Int
  index : Nat
  bounds : Nat
deriving DecidableEq, Repr

/-- ProbeManager state: `_max_probes` and the `_probes` vector. -/
structure ProbeManagerState where
  max_probes : Nat
  probes : List EnvironmentProbe
deriving DecidableEq, Repr

/-- ProbeManager::add_probe (part_002 lines 122-135): refuse (logging an
error) when the vector already holds max_probes probes; otherwise reset the
probe's last_update to -1, set its index to the current vector size, and push
it. -/
def add_probe (m : ProbeManagerState) (probe : EnvironmentProbe) :
    Bool × ProbeManagerState :=
  if m.max_probes ≤ m.probes.length then
    (false, m)
  else
    (true, { m with probes :=
        m.probes ++ [{ probe with last_update := -1, index := m.probes.length }] })

/-- A fresh ProbeManager (the constructor leaves `_probes` empty). -/
def probe_manager_init (max_probes : Nat) : ProbeManagerState :=
  { max_probes := max_probes, probes := [] }

/-- State after a sequence of add_probe calls on a fresh manager. -/
def run_add_probes (max_probes : Nat) (ps : List EnvironmentProbe) : ProbeManagerState :=
  ps.foldl (fun m p => (add_probe m p).2) (probe_manager_init max_probes)

/-- The invariant claim C9 asserts: the vector never exceeds max_probes and
every stored probe's index equals its position. -/
def ProbeInvariant (m : ProbeManagerState) : Prop :=
  m.probes.length ≤ m.max_probes
  ∧ ∀ (i : Nat) (q : EnvironmentProbe), m.probes[i]? = some q → q.index = i

theorem add_probe_preserves_invariant (m : ProbeManagerState)
    (probe : EnvironmentProbe) (h : ProbeInvariant m) :
    ProbeInvariant (add_probe m probe).2 := by
  by_cases hfull : m.max_probes ≤ m.probes.length
  · simpa [add_probe, hfull] using h
  · simp only [add_probe, if_neg hfull]
    constructor
    · simp
      omega
    · intro i q hq
      rcases Nat.lt_or_ge i m.probes.length with hi | hi
      · rw [List.getElem?_append_left hi] at hq
        exact h.2 i q hq
      · rw [List.getElem?_append_right hi] at hq
        have hlt : i - m.probes.length < 1 := by
          by_contra hcon
          push_neg at hcon
          rw [List.getElem?_eq_none (by simpa using hcon)] at hq
          exact Option.noConfusion hq
        have h0 : i - m.probes.length = 0 := by omega
        rw [h0] at hq
        have hq2 : q = { probe with last_update := -1, index := m.probes.length } := by
          simpa using hq.symm
        have hieq : i = m.probes.length := by omega
        rw [hq2, hieq]

/-- Claim C9: add_probe returns false and changes nothing on a full manager;
otherwise it appends the probe with last_update -1 and index equal to the
previous length and returns true; consequently, after any sequence of
add_probe calls on a fresh manager, the vector length never exceeds
max_probes and every stored probe's index is its position. -/
theorem add_probe_spec :
    (∀ (m : ProbeManagerState) (p : EnvironmentProbe),
        m.max_probes ≤ m.probes.length → add_probe m p = (false, m))
    ∧ (∀ (m : ProbeManagerState) (p : EnvironmentProbe),
        m.probes.length < m.max_probes →
        add_probe m p =
          (true, { m with probes :=
              m.probes ++ [{ p with last_update := -1, index := m.probes.length }] }))
    ∧ (∀ (m : ProbeManagerState) (p : EnvironmentProbe),
        ProbeInvariant m → ProbeInvariant (add_probe m p).2)
    ∧ (∀ (mx : Nat) (ps : List EnvironmentProbe), ProbeInvariant (run_add_probes mx ps)) := by
  refine ⟨?_, ?_, add_probe_preserves_invariant, ?_⟩
  · intro m p h
    simp [add_probe, h]
  · intro m p h
    simp [add_probe, Nat.not_le.mpr h]
  · intro mx ps
    have hgen : ∀ (l : List EnvironmentProbe) (m : ProbeManagerState),
        ProbeInvariant m → ProbeInvariant (l.foldl (fun m p => (add_probe m p).2) m) := by
      intro l
      induction l with
      | nil => intro m hm; exact hm
      | cons p rest ih =>
        intro m hm
        exact ih _ (add_probe_preserves_invariant m p hm)
    apply hgen
    exact ⟨by simp [probe_manager_init], by simp [probe_manager_init]⟩

/-- One-slot manager already holding its probe, used in the C9 witness. -/
def c9_full_manager : ProbeManagerState :=
  { max_probes := 1, probes := [{ last_update := -1, index := 0, bounds := 0 }] }

/-- Closed witness for the C9 theorem at concrete inputs: a manager with one
slot accepts one probe and rejects the next. -/
theorem add_probe_spec_witness :
    add_probe (probe_manager_init 1) { last_update := 7, index := 9, bounds := 0 } =
      (true, c9_full_manager)
    ∧ add_probe c9_full_manager { last_update := 5, index := 4, bounds := 1 } =
      (false, c9_full_manager)
    ∧ ProbeInvariant (run_add_probes 1
        [{ last_update := 7, index := 9, bounds := 0 },
         { last_update := 5, index := 4, bounds := 1 }]) := by
  refine ⟨?_, ?_, add_probe_spec.2.2.2 1 _⟩
  · exact add_probe_spec.2.1 (probe_manager_init 1)
      { last_update := 7, index := 9, bounds := 0 } (by decide)
  · exact add_probe_spec.1 c9_full_manager
      { last_update := 5, index := 4, bounds := 1 } (by decide)

/-- The comparator of ProbeManager::find_probe_to_update's std::sort call:
order probes by last_update.  (std::sort requires only a strict weak order;
the model sorts with the reflexive closure, which yields the same sortedness
of keys and hence the same minimality guarantee.) -/
def probe_le (a b : EnvironmentProbe) : Prop :=
  a.last_update ≤ b.last_update

instance : DecidableRel probe_le := fun a b =>
  inferInstanceAs (Decidable (a.last_update ≤ b.last_update))

instance : IsTotal EnvironmentProbe probe_le :=
  ⟨fun a b => Int.le_total a.last_update b.last_update⟩

instance : IsTrans EnvironmentProbe probe_le :=
  ⟨fun _ _ _ hab hbc => Int.le_trans hab hbc⟩

/-- ProbeManager::find_probe_to_update (part_002 lines 147-168): return null
on an empty probe list; otherwise sort a copy of the list by last_update and
return the first probe whose bounds are not disjoint from the view frustum.
The frustum test (an external engine bounding-volume intersection against the
current camera) is abstracted as the predicate in_view on the probe's bounds
handle; in_view p.bounds = true models contains(...) != IF_no_intersection. -/
def find_probe_to_update (in_view : Nat → Bool) (m : ProbeManagerState) :
    Option EnvironmentProbe :=
  if m.probes.isEmpty then none
  else (List.insertionSort probe_le m.probes).find? fun c => in_view c.bounds

theorem find?_min_of_sorted {l : List EnvironmentProbe} {f : EnvironmentProbe → Bool}
    {p : EnvironmentProbe} (hs : List.Sorted probe_le l) (hf : l.find? f = some p) :
    ∀ q ∈ l, f q = true → p.last_update ≤ q.last_update := by
  induction l with
  | nil => exact absurd hf (by simp)
  | cons a t ih =>
    rw [List.sorted_cons] at hs
    intro q hq hfq
    cases hfa : f a with
    | true =>
      rw [List.find?_cons_of_pos t hfa] at hf
      have hpa : p = a := by injection hf with h; exact h.symm
      subst hpa
      rcases List.mem_cons.mp hq with rfl | hqt
      · exact le_refl _
      · exact hs.1 q hqt
    | false =>
      rw [List.find?_cons_of_neg t (by simp [hfa])] at hf
      rcases List.mem_cons.mp hq with rfl | hqt
      · rw [hfq] at hfa
        exact Bool.noConfusion hfa
      · exact ih hs.2 hf q hqt hfq

/-- Claim C10: find_probe_to_update returns null exactly when the probe list
is empty or no stored probe intersects the view frustum; otherwise it returns
an intersecting stored probe whose last_update is minimal among the
intersecting probes.  (The probe list itself is not an output: the function
reads the state and sorts only a local copy.) -/
theorem find_probe_to_update_spec (in_view : Nat → Bool) (m : ProbeManagerState) :
    (find_probe_to_update in_view m = none ↔
      (m.probes = [] ∨ ∀ p ∈ m.probes, in_view p.bounds = false))
    ∧ (∀ p, find_probe_to_update in_view m = some p →
        p ∈ m.probes ∧ in_view p.bounds = true
        ∧ ∀ q ∈ m.probes, in_view q.bounds = true →
            p.last_update ≤ q.last_update) := by
  have hperm : (List.insertionSort probe_le m.probes).Perm m.probes :=
    List.perm_insertionSort probe_le m.probes
  have hsorted : List.Sorted probe_le (List.insertionSort probe_le m.probes) :=
    List.sorted_insertionSort probe_le m.probes
  constructor
  · constructor
    · intro h
      by_cases he : m.probes.isEmpty
      · exact Or.inl (List.isEmpty_iff.mp he)
      · right
        rw [find_probe_to_update, if_neg he] at h
        intro p hp
        have := List.find?_eq_none.mp h p (hperm.mem_iff.mpr hp)
        simpa using this
    · rintro (h | h)
      · simp [find_probe_to_update, h]
      · by_cases he : m.probes.isEmpty
        · simp [find_probe_to_update, he]
        · rw [find_probe_to_update, if_neg he]
          apply List.find?_eq_none.mpr
          intro p hp
          simp [h p (hperm.mem_iff.mp hp)]
  · intro p hp
    have hne : m.probes.isEmpty = false := by
      by_contra hcon
      have : m.probes.isEmpty = true := by
        cases hh : m.probes.isEmpty
        · exact absurd hh hcon
        · rfl
      rw [find_probe_to_update, if_pos this] at hp
      exact Option.noConfusion hp
    rw [find_probe_to_update, if_neg (by simp [hne])] at hp
    refine ⟨hperm.mem_iff.mp (List.mem_of_find?_eq_some hp),
            by simpa using List.find?_some hp, ?_⟩
    intro q hq hfq
    exact find?_min_of_sorted hsorted hp q (hperm.mem_iff.mpr hq) hfq

/-- Three-probe manager used in the C10 witness: probes 0 and 2 are in view,
probe 2 is staler. -/
def c10_manager : ProbeManagerState :=
  { max_probes := 8,
    probes := [{ last_update := 5, index := 0, bounds := 0 },
               { last_update := 1, index := 1, bounds := 1 },
               { last_update := 3, index := 2, bounds := 2 }] }

/-- View predicate of the C10 witness: only bounds handles 0 and 2 intersect
the frustum. -/
def c10_in_view : Nat → Bool
  | 0 => true
  | 1 => false
  | 2 => true
  | _ => false

/-- Closed witness for the C10 theorem: the returned probe is stored, in
view, and has minimal last_update among in-view probes; an all-out-of-view
manager yields none. -/
theorem find_probe_to_update_spec_witness :
    (∀ p, find_probe_to_update c10_in_view c10_manager = some p →
        p ∈ c10_manager.probes ∧ c10_in_view p.bounds = true
        ∧ ∀ q ∈ c10_manager.probes, c10_in_view q.bounds = true →
            p.last_update ≤ q.last_update)
    ∧ (find_probe_to_update (fun _ => false) c10_manager = none) := by
  constructor
  · exact (find_probe_to_update_spec c10_in_view c10_manager).2
  · exact (find_probe_to_update_spec (fun _ => false) c10_manager).1.mpr
      (Or.inr (fun p _ => rfl))

/-! StageManager (claim C1).  The StageManager implementation
(stage_manager.cpp) is not among the sources; the definitions in this section
are modelled from the spec: "topologically sorts stages by resource
dependency ... and triggers setup/update/reload callbacks in dependency
order", where the dependency relation is "a stage that requires a pipe comes
after the stage that produces that pipe". -/

/-- A linear order of stages is a valid (topological) order relative to an
initially produced pipe set when every stage's required pipes are available
before it runs: produced initially or by an earlier stage. -/
def IsValidOrder : List String → List StageDecl → Prop
  | _, [] => True
  | produced, s :: rest =>
      (∀ p ∈ s.required_pipes, p ∈ produced)
      ∧ IsValidOrder (produced ++ s.produced_pipes) rest

theorem isValidOrder_nil (produced : List String) : IsValidOrder produced [] :=
  trivial

theorem isValidOrder_cons (produced : List String) (s : StageDecl)
    (rest : List StageDecl) :
    IsValidOrder produced (s :: rest) ↔
      ((∀ p ∈ s.required_pipes, p ∈ produced)
        ∧ IsValidOrder (produced ++ s.produced_pipes) rest) :=
  Iff.rfl

/-- Decidability of IsValidOrder, so concrete orders can be checked. -/
def decideIsValidOrder :
    (order : List StageDecl) → (produced : List String) →
      Decidable (IsValidOrder produced order)
  | [], _ => Decidable.isTrue trivial
  | s :: rest, produced =>
      @instDecidableAnd _ _ inferInstance
        (decideIsValidOrder rest (produced ++ s.produced_pipes))

instance (produced : List String) (order : List StageDecl) :
    Decidable (IsValidOrder produced order) :=
  decideIsValidOrder order produced

/-- Modelled from the spec: acyclicity of the resource-dependency graph,
phrased by the standard equivalence as the existence of a topological order
of the registered stages. -/
def Acyclic (inputs : List String) (stages : List StageDecl) : Prop :=
  ∃ order, order.Perm stages ∧ IsValidOrder inputs order

/-- A stage can run once all its required pipes are available. -/
def can_run (produced : List String) (s : StageDecl) : Bool :=
  s.required_pipes.all fun p => decide (p ∈ produced)

/-- Modelled from the spec: the stage manager's topological sort, in Kahn
style.  Each round moves every stage whose required pipes are all available
to the output and adds its produced pipes to the available set; if no stage
is ready while some remain, the dependencies are cyclic and the sort fails.
Fuel bounds the number of rounds (each successful round removes at least one
stage). -/
def stage_sort_aux : Nat → List String → List StageDecl → Option (List StageDecl)
  | 0, _, pending => if pending = [] then some [] else none
  | fuel + 1, produced, pending =>
    if pending = [] then some []
    else
      let avail := pending.filter (can_run produced)
      if avail = [] then none
      else
        (stage_sort_aux fuel (produced ++ avail.flatMap StageDecl.produced_pipes)
            (pending.filter fun s => !can_run produced s)).map
          fun rest => avail ++ rest

/-- Modelled from the spec: the stage manager's topological sort of the
registered stages, given the externally provided input pipes. -/
def stage_sort (inputs : List String) (stages : List StageDecl) :
    Option (List StageDecl) :=
  stage_sort_aux stages.length inputs stages

/-- Callbacks the stage manager triggers on a stage. -/
inductive StageCallback where
  | setup (stage_id : String)
  | update (stage_id : String)
  | reload (stage_id : String)
deriving DecidableEq, Repr

/-- Modelled from the spec: StageManager::setup invokes each stage's setup
callback in the topologically sorted order. -/
def stage_manager_setup_trace (inputs : List String) (stages : List StageDecl) :
    Option (List StageCallback) :=
  (stage_sort inputs stages).map fun order =>
    order.map fun s => StageCallback.setup s.stage_id

/-- Modelled from the spec: StageManager::update invokes each stage's update
callback in the topologically sorted order. -/
def stage_manager_update_trace (inputs : List String) (stages : List StageDecl) :
    Option (List StageCallback) :=
  (stage_sort inputs stages).map fun order =>
    order.map fun s => StageCallback.update s.stage_id

/-- Modelled from the spec: StageManager::reload_shaders invokes each stage's
reload callback in the topologically sorted order. -/
def stage_manager_reload_trace (inputs : List String) (stages : List StageDecl) :
    Option (List StageCallback) :=
  (stage_sort inputs stages).map fun order =>
    order.map fun s => StageCallback.reload s.stage_id

theorem isValidOrder_mono {o : List StageDecl} :
    ∀ {P Q : List String}, IsValidOrder P o → (∀ x ∈ P, x ∈ Q) → IsValidOrder Q o := by
  induction o with
  | nil => intro P Q _ _; exact trivial
  | cons s rest ih =>
    intro P Q h hPQ
    refine ⟨fun p hp => hPQ p (h.1 p hp), ih h.2 ?_⟩
    intro x hx
    rcases List.mem_append.mp hx with h1 | h2
    · exact List.mem_append.mpr (Or.inl (hPQ x h1))
    · exact List.mem_append.mpr (Or.inr h2)

theorem isValidOrder_append {xs : List StageDecl} :
    ∀ {ys : List StageDecl} {P : List String}, IsValidOrder P xs →
      IsValidOrder (P ++ xs.flatMap StageDecl.produced_pipes) ys →
      IsValidOrder P (xs ++ ys) := by
  induction xs with
  | nil =>
    intro ys P _ h2
    simpa using h2
  | cons s rest ih =>
    intro ys P h1 h2
    refine ⟨h1.1, ih h1.2 ?_⟩
    rw [List.flatMap_cons, ← List.append_assoc] at h2
    exact h2

theorem isValidOrder_of_all_ready :
    ∀ {l : List StageDecl} {P : List String},
      (∀ s ∈ l, ∀ p ∈ s.required_pipes, p ∈ P) → IsValidOrder P l := by
  intro l
  induction l with
  | nil => intro P _; exact trivial
  | cons s rest ih =>
    intro P h
    refine ⟨h s (List.mem_cons_self s rest), ?_⟩
    have hrest : IsValidOrder P rest :=
      ih fun t ht p hp => h t (List.mem_cons_of_mem s ht) p hp
    exact isValidOrder_mono hrest fun x hx => List.mem_append.mpr (Or.inl hx)

theorem isValidOrder_filter {g : StageDecl → Bool} :
    ∀ {o : List StageDecl} {P Q : List String},
      IsValidOrder P o →
      (∀ s ∈ o, g s = false → ∀ q ∈ s.produced_pipes, q ∈ Q) →
      (∀ x ∈ P, x ∈ Q) →
      IsValidOrder Q (o.filter g) := by
  intro o
  induction o with
  | nil => intro P Q _ _ _; simpa using trivial
  | cons s rest ih =>
    intro P Q h hrem hPQ
    cases hgs : g s with
    | false =>
      rw [List.filter_cons_of_neg (by simp [hgs])]
      apply ih h.2 ?_ ?_
      · intro t ht hgt q hq
        exact hrem t (List.mem_cons_of_mem s ht) hgt q hq
      · intro x hx
        rcases List.mem_append.mp hx with h1 | h2
        · exact hPQ x h1
        · exact hrem s (List.mem_cons_self s rest) hgs x h2
    | true =>
      rw [List.filter_cons_of_pos hgs]
      refine ⟨fun p hp => hPQ p (h.1 p hp), ?_⟩
      apply ih h.2 ?_ ?_
      · intro t ht hgt q hq
        exact List.mem_append.mpr
          (Or.inl (hrem t (List.mem_cons_of_mem s ht) hgt q hq))
      · intro x hx
        rcases List.mem_append.mp hx with h1 | h2
        · exact List.mem_append.mpr (Or.inl (hPQ x h1))
        · exact List.mem_append.mpr (Or.inr h2)

theorem option_isSome_map {α β : Type} (f : α → β) (o : Option α) :
    (o.map f).isSome = o.isSome := by
  cases o <;> rfl

theorem stage_sort_aux_sound :
    ∀ (fuel : Nat) (P : List String) (pending out : List StageDecl),
      stage_sort_aux fuel P pending = some out →
      out.Perm pending ∧ IsValidOrder P out := by
  intro fuel
  induction fuel with
  | zero =>
    intro P pending out h
    by_cases hp : pending = []
    · subst hp
      have h2 : out = [] := by simpa [stage_sort_aux] using h.symm
      subst h2
      exact ⟨List.Perm.refl [], trivial⟩
    · simp [stage_sort_aux, hp] at h
  | succ fuel ih =>
    intro P pending out h
    by_cases hp : pending = []
    · subst hp
      have h2 : out = [] := by simpa [stage_sort_aux] using h.symm
      subst h2
      exact ⟨List.Perm.refl [], trivial⟩
    · simp only [stage_sort_aux] at h
      rw [if_neg hp] at h
      by_cases hav : pending.filter (can_run P) = []
      · rw [if_pos hav] at h
        exact absurd h (by simp)
      · rw [if_neg hav] at h
        obtain ⟨rest, hrec, rfl⟩ := Option.map_eq_some'.mp h
        obtain ⟨hperm_rest, hvalid_rest⟩ := ih _ _ _ hrec
        constructor
        · exact (List.Perm.append_left (pending.filter (can_run P)) hperm_rest).trans
            (List.filter_append_perm (can_run P) pending)
        · apply isValidOrder_append ?_ hvalid_rest
          apply isValidOrder_of_all_ready
          intro s hs p hpreq
          have hcr := (List.mem_filter.mp hs).2
          rw [can_run, List.all_eq_true] at hcr
          exact of_decide_eq_true (hcr p hpreq)

theorem stage_sort_aux_complete :
    ∀ (fuel : Nat) (P : List String) (pending σ : List StageDecl),
      σ.Perm pending → IsValidOrder P σ → pending.length ≤ fuel →
      (stage_sort_aux fuel P pending).isSome = true := by
  intro fuel
  induction fuel with
  | zero =>
    intro P pending σ hperm hvalid hlen
    have hp : pending = [] := List.eq_nil_of_length_eq_zero (Nat.le_zero.mp hlen)
    simp [stage_sort_aux, hp]
  | succ fuel ih =>
    intro P pending σ hperm hvalid hlen
    by_cases hp : pending = []
    · simp [stage_sort_aux, hp]
    · have hσne : σ ≠ [] := by
        intro hσ
        subst hσ
        exact hp (List.perm_nil.mp hperm.symm)
      obtain ⟨s0, σr, rfl⟩ := List.exists_cons_of_ne_nil hσne
      have hs0req : ∀ p ∈ s0.required_pipes, p ∈ P := hvalid.1
      have hs0mem : s0 ∈ pending := hperm.mem_iff.mp (List.mem_cons_self s0 σr)
      have hcan : can_run P s0 = true := by
        rw [can_run, List.all_eq_true]
        intro p hp2
        exact decide_eq_true (hs0req p hp2)
      have hmem_avail : s0 ∈ pending.filter (can_run P) :=
        List.mem_filter.mpr ⟨hs0mem, hcan⟩
      have hav : pending.filter (can_run P) ≠ [] := List.ne_nil_of_mem hmem_avail
      simp only [stage_sort_aux]
      rw [if_neg hp, if_neg hav, option_isSome_map]
      apply ih _ _ ((s0 :: σr).filter fun x => !can_run P x) (hperm.filter _) ?_ ?_
      · apply isValidOrder_filter hvalid ?_ ?_
        · intro t ht hgt q hq
          have hct : can_run P t = true := by
            cases hc : can_run P t
            · rw [hc] at hgt
              exact Bool.noConfusion hgt
            · rfl
          have htav : t ∈ pending.filter (can_run P) :=
            List.mem_filter.mpr ⟨hperm.mem_iff.mp ht, hct⟩
          exact List.mem_append.mpr
            (Or.inr (List.mem_flatMap.mpr ⟨t, htav, hq⟩))
        · intro x hx
          exact List.mem_append.mpr (Or.inl hx)
      · have hsplit :
            (pending.filter (can_run P)).length
              + (pending.filter fun x => !can_run P x).length = pending.length := by
          have hlp := (List.filter_append_perm (can_run P) pending).length_eq
          simpa [List.length_append] using hlp
        have hpos : 0 < (pending.filter (can_run P)).length :=
          List.length_pos.mpr hav
        omega

/-- Claim C1: for every set of registered stages whose resource-dependency
graph is acyclic, the stage manager's sort yields an order of exactly those
stages in which every stage's required pipes are produced before it runs (a
stage requiring a pipe comes after the producer), and the setup, update and
reload callbacks are each invoked in that dependency order. -/
theorem stage_manager_topological_order_spec (inputs : List String)
    (stages : List StageDecl) (hacyc : Acyclic inputs stages) :
    ∃ order, stage_sort inputs stages = some order
      ∧ order.Perm stages
      ∧ IsValidOrder inputs order
      ∧ stage_manager_setup_trace inputs stages =
          some (order.map fun s => StageCallback.setup s.stage_id)
      ∧ stage_manager_update_trace inputs stages =
          some (order.map fun s => StageCallback.update s.stage_id)
      ∧ stage_manager_reload_trace inputs stages =
          some (order.map fun s => StageCallback.reload s.stage_id) := by
  obtain ⟨σ, hperm, hvalid⟩ := hacyc
  have hsome := stage_sort_aux_complete stages.length inputs stages σ hperm hvalid le_rfl
  obtain ⟨order, hord⟩ := Option.isSome_iff_exists.mp hsome
  obtain ⟨hperm2, hvalid2⟩ := stage_sort_aux_sound stages.length inputs stages order hord
  refine ⟨order, hord, hperm2, hvalid2, ?_, ?_, ?_⟩
  · simp [stage_manager_setup_trace, stage_sort, hord]
  · simp [stage_manager_update_trace, stage_sort, hord]
  · simp [stage_manager_reload_trace, stage_sort, hord]

/-- Producer stage of the C1 witness. -/
def c1_gbuffer_stage : StageDecl :=
  { stage_id := "GBufferStage", required_pipes := [], required_inputs := [],
    produced_pipes := ["GBuffer"] }

/-- Consumer stage of the C1 witness: requires the pipe the other produces. -/
def c1_ambient_stage : StageDecl :=
  { stage_id := "AmbientStage", required_pipes := ["GBuffer"],
    required_inputs := [], produced_pipes := ["AmbientOcclusion"] }

/-- Closed witness for the C1 theorem: a two-stage registration, listed with
the consumer first, is acyclic and the sort and callback traces exist in
dependency order. -/
theorem stage_manager_topological_order_spec_witness :
    Acyclic [] [c1_ambient_stage, c1_gbuffer_stage]
    ∧ ∃ order, stage_sort [] [c1_ambient_stage, c1_gbuffer_stage] = some order
        ∧ order.Perm [c1_ambient_stage, c1_gbuffer_stage]
        ∧ IsValidOrder [] order
        ∧ stage_manager_setup_trace [] [c1_ambient_stage, c1_gbuffer_stage] =
            some (order.map fun s => StageCallback.setup s.stage_id)
        ∧ stage_manager_update_trace [] [c1_ambient_stage, c1_gbuffer_stage] =
            some (order.map fun s => StageCallback.update s.stage_id)
        ∧ stage_manager_reload_trace [] [c1_ambient_stage, c1_gbuffer_stage] =
            some (order.map fun s => StageCallback.reload s.stage_id) := by
  have hac : Acyclic [] [c1_ambient_stage, c1_gbuffer_stage] :=
    ⟨[c1_gbuffer_stage, c1_ambient_stage],
     List.Perm.swap c1_ambient_stage c1_gbuffer_stage [], by decide⟩
  exact ⟨hac, stage_manager_topological_order_spec [] _ hac⟩

end RP
